import Mathlib

/-!
Verification development for the VirtuaStudio module-lifecycle controller and
the AOB batch-export pipeline.

The development shallowly embeds:
* `src/core/types.ts` — the data model (deliverable specs, shot specs);
* `src/modules/aob-void.tsx` (`src/unnamed/part_001`) — the AOB production
  module: its `init` context, per-frame `update`, the batch reconciliation
  effect of its `UI` component, and `startBatch`;
* `src/index.tsx` — the engine capability surface (`startRecording`,
  `stopRecording`, `saveJSON`, `setCameraMode`), and the module lifecycle
  controller (`loadModule`) together with the render loop, as a labelled
  transition system.

All machine numbers in the source are IEEE doubles used on exact values
(small integers, halves, tenths), so they are embedded as rationals `ℚ`;
wall-clock time (`performance.now()`) is an explicit rational parameter in
milliseconds.
-/

namespace VS

/-- 3D vector with rational coordinates (stands for `THREE.Vector3`). -/
structure Vec3 where
  x : ℚ
  y : ℚ
  z : ℚ
deriving DecidableEq, Repr

/-- `THREE.Vector3.lerpVectors(a, b, t)`: `a + (b - a) * t`, componentwise. -/
def Vec3.lerp (a b : Vec3) (t : ℚ) : Vec3 :=
  ⟨a.x + (b.x - a.x) * t, a.y + (b.y - a.y) * t, a.z + (b.z - a.z) * t⟩

/-- JavaScript `Math.round` on the exact rationals used here:
round half toward positive infinity. -/
def jsRound (q : ℚ) : ℤ := ⌊q + 1/2⌋

/-- JavaScript `Math.floor`. -/
def jsFloor (q : ℚ) : ℤ := ⌊q⌋

/-- JavaScript `String.prototype.includes` helper: does the list start with
the pattern? -/
def listStarts : List Char → List Char → Bool
  | [], _ => true
  | _ :: _, [] => false
  | p :: ps, c :: cs => p == c && listStarts ps cs

/-- Does `pat` occur as a contiguous run of `l`? -/
def listHasInfix (pat : List Char) : List Char → Bool
  | [] => listStarts pat []
  | c :: cs => listStarts pat (c :: cs) || listHasInfix pat cs

/-- JavaScript `s.includes(pat)` on strings. -/
def jsIncludes (s pat : String) : Bool := listHasInfix pat.data s.data

-- ===========================================================================
-- Data model (src/core/types.ts)
-- ===========================================================================

/-- `DeliverableSpec.type` in `src/core/types.ts`. -/
inductive DelType
  | VIDEO_PLATE
  | VFX_ELEMENT
  | METADATA
deriving DecidableEq, Repr

/-- `DeliverableSpec` in `src/core/types.ts`. `shotId` is optional. -/
structure DeliverableSpec where
  id : String
  filename : String
  type : DelType
  shotId : Option String
  description : String
deriving DecidableEq, Repr

/-- The `camera` field of `ShotSpec`. -/
structure CamSpec where
  lens : ℚ
  posStart : Vec3
  posEnd : Vec3
  lookAt : Vec3
deriving DecidableEq, Repr

/-- `ShotSpec` in `src/core/types.ts`. -/
structure ShotSpec where
  id : String
  slug : String
  duration : ℚ
  camera : CamSpec
deriving DecidableEq, Repr

/-- `DELIVERABLES` in `src/modules/aob-void.tsx` — the 6-entry AOB list. -/
def DELIVERABLES : List DeliverableSpec := [
  ⟨"del_01", "AOB_SEQ01_S01_SH01_PLATE_v001.webm", .VIDEO_PLATE, some "SH01", "BLACK HOLD"⟩,
  ⟨"del_02", "AOB_SEQ01_S01_SH02_PLATE_v001.webm", .VIDEO_PLATE, some "SH02", "SHIMMER EMERGE"⟩,
  ⟨"del_03", "AOB_SEQ01_S01_SH03_PLATE_v001.webm", .VIDEO_PLATE, some "SH03", "ABSTRACT DENSITY"⟩,
  ⟨"del_04", "AOB_PTC_SHIMMER_01_v001.webm", .VFX_ELEMENT, none, "Particle Pass (12s)"⟩,
  ⟨"del_05", "AOB_SEQ01_CAM_DATA.json", .METADATA, none, "Camera Tracking JSON"⟩,
  ⟨"del_06", "AOB_SEQ01_PARTICLES.json", .METADATA, none, "Particle Positions for Polishing/Post"⟩]

/-- `SHOT_SPECS` in `src/modules/aob-void.tsx`. -/
def SHOT_SPECS : List ShotSpec := [
  ⟨"SH01", "SH01", 3, ⟨50, ⟨0,0,5⟩, ⟨0,0,0⟩, ⟨0,0,0⟩⟩⟩,
  ⟨"SH02", "SH02", 12, ⟨35, ⟨0,0,6⟩, ⟨0,0,0⟩, ⟨0,0,0⟩⟩⟩,
  ⟨"SH03", "SH03", 20, ⟨28, ⟨0,1.5,5⟩, ⟨0,0.8,0⟩, ⟨0,0.8,0⟩⟩⟩]

/-- `SHOT_SPECS.find(s => s.id === sid)`. -/
def findShot (sid : String) : Option ShotSpec :=
  SHOT_SPECS.find? (fun s => s.id == sid)

/-- `SHOT_SPECS.find(s => s.id === job.shotId)` where `job.shotId` may be
absent (`undefined` never compares `===`-equal to a string id). -/
def findShotFor : Option String → Option ShotSpec
  | none => none
  | some sid => findShot sid

-- ===========================================================================
-- Camera / module context (the context returned by AOBVoidModule.init)
-- ===========================================================================

/-- The shared perspective camera, as the AOB module observes and drives it.
THREE computes `rotation` deterministically from the position and the last
`lookAt` target; the embedding therefore carries the look-at target (`look`)
as the representation of the orientation. -/
structure Camera where
  pos : Vec3
  fov : ℚ
  look : Vec3
deriving DecidableEq, Repr

/-- One element of `ctx.trackingData` pushed by `AOBVoidModule.update`. -/
structure TrackSample where
  shotId : String
  frame : ℤ
  time : ℚ
  pos : Vec3
  rot : Vec3
  fov : ℚ
deriving DecidableEq, Repr

/-- `ctx.batch.status` values. -/
inductive BatchStatus
  | IDLE
  | PROCESSING
  | COMPLETE
deriving DecidableEq, Repr

/-- `ctx.batch`. -/
structure BatchState where
  active : Bool
  index : Nat
  status : BatchStatus
deriving DecidableEq, Repr

/-- The module context created by `AOBVoidModule.init`.  The particle system
is always present in this module (created in `init`, replaced but never
removed by `switchScenePreset`), so its observable scalars are plain fields:
`particleRotY` is `particleSystem.rotation.y` and `particleColor` is the
shader's scalar color uniform (`setOpacity` writes it).  `presetSpeed` is
`ctx.preset.speed` (0.05 for the SHIMMER preset). -/
structure Ctx where
  camera : Camera
  particleRotY : ℚ
  particleColor : ℚ
  presetSpeed : ℚ
  activeShotId : Option String
  isPlaying : Bool
  startTime : ℚ
  progress : ℤ
  trackingData : List TrackSample
  batch : BatchState
  onSignal : Bool
  activeScenePreset : String
deriving DecidableEq, Repr

/-- The context as returned by `AOBVoidModule.init`. -/
def initCtx : Ctx :=
  { camera := ⟨⟨0,2,10⟩, 45, ⟨0,0,0⟩⟩
    particleRotY := 0
    particleColor := 1
    presetSpeed := 1/20
    activeShotId := none
    isPlaying := false
    startTime := 0
    progress := 0
    trackingData := []
    batch := ⟨false, 0, .IDLE⟩
    onSignal := false
    activeScenePreset := "VOID_ABSTRACT" }

-- ===========================================================================
-- AOBVoidModule.update (per-frame shot playback)
-- ===========================================================================

/-- Net effect of the cosmetic prologue of `AOBVoidModule.update` on the
particle color: `setOpacity(0.1)` when the SH01 shot is active,
`setOpacity(0.8)` when SH03 is active, otherwise untouched. -/
def vizColor (ctx : Ctx) : ℚ :=
  if ctx.activeShotId = some "SH01" then 1/10
  else if ctx.activeShotId = some "SH03" then 8/10
  else ctx.particleColor

/-- Net effect of `AOBVoidModule.update` on `particleSystem.rotation.y`:
`time * preset.speed`, doubled while SH03 is the active shot. -/
def vizRot (ctx : Ctx) (tm : ℚ) : ℚ :=
  if ctx.activeShotId = some "SH03" then tm * (ctx.presetSpeed * 2)
  else tm * ctx.presetSpeed

/-- The cosmetic prologue of `AOBVoidModule.update` (particle rotation and
the SH01/SH03 opacity overrides); touches only the particle fields. -/
def viz (ctx : Ctx) (tm : ℚ) : Ctx :=
  { ctx with particleRotY := vizRot ctx tm, particleColor := vizColor ctx }

/-- Result of one `update` call: the new context and whether the installed
`onSignal` callback was invoked on this frame. -/
structure UpdRes where
  ctx : Ctx
  fired : Bool
deriving DecidableEq, Repr

/-- The shot-playback body of `AOBVoidModule.update`, entered when
`ctx.isPlaying && ctx.activeShotId` holds; `nowMs` is `performance.now()`. -/
def playback (ctx : Ctx) (sid : String) (nowMs : ℚ) : UpdRes :=
  let shot := findShot sid
  let duration : ℚ :=
    if sid = "VFX_PASS" then 12 else (shot.map ShotSpec.duration).getD 0
  if 0 < duration then
    let elapsed := (nowMs - ctx.startTime) / 1000
    let t := min (elapsed / duration) 1
    let c := { ctx with progress := jsRound (t * 100) }
    let c :=
      if sid = "VFX_PASS" then c
      else
        match shot with
        | some s =>
          let cam := { c.camera with
            pos := Vec3.lerp s.camera.posStart s.camera.posEnd t,
            look := s.camera.lookAt }
          let c := { c with camera := cam }
          let c := if s.id = "SH02" then { c with particleColor := t * (8/10) } else c
          if c.batch.active then
            { c with trackingData := c.trackingData ++
                [⟨s.id, jsFloor (elapsed * 30), elapsed, cam.pos, cam.look, cam.fov⟩] }
          else c
        | none => c
    if 1 ≤ t then ⟨{ c with isPlaying := false }, c.onSignal⟩
    else ⟨c, false⟩
  else ⟨ctx, false⟩

/-- `AOBVoidModule.update(ctx, time, delta)`; `nowMs` is the wall clock read
by `performance.now()` inside the body, `tm` the render-loop elapsed time.
An active shot id is a non-empty string in the source, so the JavaScript
truthiness test `ctx.isPlaying && ctx.activeShotId` is `isSome` here; the
empty-string case falls into the `duration = 0` no-op branch either way. -/
def update (ctx : Ctx) (nowMs tm : ℚ) : UpdRes :=
  let c := viz ctx tm
  match c.isPlaying, c.activeShotId with
  | true, some sid => playback c sid nowMs
  | _, _ => ⟨c, false⟩

-- ===========================================================================
-- Engine capability surface (src/index.tsx: engineAPI)
-- ===========================================================================

/-- Externally observable engine actions, in call order.  A `save` records
the filename and whether the payload built at the call site was the
particle-positions document (filename contains `PARTICLES`) rather than the
camera-tracking document. -/
inductive Event
  | startRec (filename : String)
  | stopRec
  | save (filename : String) (particleExport : Bool)
deriving DecidableEq, Repr

/-- State of the engine capability surface in `src/index.tsx`:
`isRecording` is the React flag read by the reconciliation effect;
`recActive` is `recorderRef.current?.state === 'recording'`;
`pendingStop` records that `rec.stop()` was called but the asynchronous
`onstop` completion (which produces the download and clears `isRecording`)
has not yet been delivered. -/
structure Engine where
  hasRenderer : Bool
  isRecording : Bool
  recActive : Bool
  pendingStop : Bool
  recordingName : String
  controlsEnabled : Bool
  events : List Event
deriving DecidableEq, Repr

/-- `engineAPI.startRecording(filename)`: no-op without a renderer surface;
otherwise starts the MediaRecorder and raises the recording flag. -/
def startRecording (e : Engine) (filename : String) : Engine :=
  if e.hasRenderer then
    { e with recordingName := filename, recActive := true, isRecording := true,
             events := e.events ++ [.startRec filename] }
  else e

/-- `engineAPI.stopRecording()`: finalizes only when the recorder is in the
`recording` state; the `onstop` completion is left pending. -/
def stopRecording (e : Engine) : Engine :=
  if e.recActive then
    { e with recActive := false, pendingStop := true,
             events := e.events ++ [.stopRec] }
  else e

/-- Delivery of the asynchronous `rec.onstop` completion: produces the
downloadable file and clears the recording flag. -/
def completeStop (e : Engine) : Engine :=
  if e.pendingStop then { e with pendingStop := false, isRecording := false }
  else e

/-- `engineAPI.saveJSON(filename, data)`: synchronous JSON download. The
payload (camera-tracking document or particle-position document) is built at
the call site in the reconciliation effect; the event records the write and
which of the two documents was serialized. -/
def saveJSON (e : Engine) (filename : String) (particleExport : Bool) : Engine :=
  { e with events := e.events ++ [.save filename particleExport] }

/-- `engineAPI.setCameraMode(mode)`. -/
inductive CamMode
  | orbit
  | scripted
deriving DecidableEq, Repr

/-- `setCameraMode`: `orbit` enables the orbit controls, `scripted` disables
(and resets) them. -/
def setCameraMode (e : Engine) (m : CamMode) : Engine :=
  { e with controlsEnabled := match m with | .orbit => true | .scripted => false }

-- ===========================================================================
-- Batch reconciliation effect and startBatch (AOBVoidModule.UI)
-- ===========================================================================

/-- One run of the batch reconciliation effect in `AOBVoidModule.UI`,
parametrized by the module's deliverable list (`DELIVERABLES` for AOB);
`nowMs` is `performance.now()` at the time the effect body runs. -/
def reconcile (ds : List DeliverableSpec) (ctx : Ctx) (eng : Engine)
    (nowMs : ℚ) : Ctx × Engine :=
  if ctx.batch.active = false then (ctx, eng)
  else if ctx.batch.status = .COMPLETE then (ctx, eng)
  else
    match ds[ctx.batch.index]? with
    | none =>
      ({ ctx with batch := { ctx.batch with status := .COMPLETE, active := false } }, eng)
    | some job =>
      if ctx.isPlaying = false ∧ eng.isRecording = true then
        ({ ctx with batch := { ctx.batch with index := ctx.batch.index + 1 } },
         stopRecording eng)
      else if ctx.isPlaying = false ∧ eng.isRecording = false ∧
              ctx.batch.status = .PROCESSING then
        match job.type with
        | .METADATA =>
          ({ ctx with batch := { ctx.batch with index := ctx.batch.index + 1 } },
           saveJSON eng job.filename (jsIncludes job.filename "PARTICLES"))
        | _ =>
          let ctx :=
            if job.type = .VIDEO_PLATE then
              match findShotFor job.shotId with
              | some shot =>
                { ctx with
                  activeShotId := some shot.id,
                  camera := ⟨shot.camera.posStart, shot.camera.lens, shot.camera.lookAt⟩ }
              | none => ctx
            else
              { ctx with
                activeShotId := some "VFX_PASS",
                camera := { ctx.camera with pos := ⟨0,0,10⟩, look := ⟨0,0,0⟩ },
                particleColor := 1 }
          ({ ctx with startTime := nowMs, isPlaying := true },
           startRecording eng job.filename)
      else (ctx, eng)

/-- `startBatch` in `AOBVoidModule.UI`. -/
def startBatch (ctx : Ctx) (eng : Engine) : Ctx × Engine :=
  ({ ctx with
     trackingData := [],
     batch := { active := true, index := 0, status := .PROCESSING } },
   setCameraMode eng .scripted)

-- ===========================================================================
-- Batch driver: reconciliation + async completion + frame updates under
-- advancing simulated time (one frame per simulated second)
-- ===========================================================================

/-- Combined simulation state for the full-batch scenario. -/
structure Sys where
  ctx : Ctx
  eng : Engine
  nowMs : ℚ
  tm : ℚ
deriving DecidableEq, Repr

/-- One scheduling round of the single cooperative timeline: the
reconciliation effect runs, any pending recording-stop completion is
delivered, then simulated time advances by one second and a frame update
runs.  This is an admissible interleaving of the effect hook, the
`MediaRecorder.onstop` callback, and the render loop. -/
def sysStep (s : Sys) : Sys :=
  let p := reconcile DELIVERABLES s.ctx s.eng s.nowMs
  let eng := completeStop p.2
  let nowMs := s.nowMs + 1000
  let tm := s.tm + 1
  let r := update p.1 nowMs tm
  ⟨r.ctx, eng, nowMs, tm⟩

/-- Run scheduling rounds until the batch reports COMPLETE (fuel-bounded). -/
def runBatch : Nat → Sys → Sys
  | 0, s => s
  | n + 1, s =>
    if s.ctx.batch.status = .COMPLETE then s else runBatch n (sysStep s)

/-- The context with the UI mounted: the first effect in `AOBVoidModule.UI`
installs the `onSignal` callback. -/
def uiCtx : Ctx := { initCtx with onSignal := true }

/-- The engine state once the renderer surface exists and nothing records. -/
def eng0 : Engine :=
  { hasRenderer := true, isRecording := false, recActive := false,
    pendingStop := false, recordingName := "video.webm",
    controlsEnabled := true, events := [] }

/-- Initial simulation state of the full-batch scenario: fresh AOB context
with UI mounted, `startBatch()` just pressed, clock at zero. -/
def sys0 : Sys :=
  let p := startBatch uiCtx eng0
  ⟨p.1, p.2, 0, 0⟩

/-- Iterated reconciliation: one `reconcile` run per listed wall-clock
reading, threading the context and engine state. -/
def reconIter (ds : List DeliverableSpec) : List ℚ → Ctx × Engine → Ctx × Engine
  | [], p => p
  | n :: ns, p => reconIter ds ns (reconcile ds p.1 p.2 n)

/-- A context playing shot SH01 from wall-clock zero (as `playPreview` or the
batch dispatch would set it up), with the UI signal installed. -/
def sh01Ctx : Ctx :=
  { uiCtx with activeShotId := some "SH01", isPlaying := true, startTime := 0 }

/-- The SH01 shot spec (duration 3 s, dolly-in from `[0,0,5]` to origin). -/
def shot01 : ShotSpec := ⟨"SH01", "SH01", 3, ⟨50, ⟨0,0,5⟩, ⟨0,0,0⟩, ⟨0,0,0⟩⟩⟩

/-- A context playing the synthetic VFX_PASS pass from wall-clock zero. -/
def vfxCtx : Ctx :=
  { uiCtx with activeShotId := some "VFX_PASS", isPlaying := true, startTime := 0 }

/-- A run of per-frame updates at the listed (wall clock, render clock)
instants, counting how many times the installed signal fires. -/
def updateSeq : List (ℚ × ℚ) → Ctx → Ctx × Nat
  | [], c => (c, 0)
  | f :: rest, c =>
    let r := update c f.1 f.2
    let p := updateSeq rest r.ctx
    (p.1, (if r.fired then 1 else 0) + p.2)

/-- The batch-cursor invariant used for induction. -/
def BatchInv (ds : List DeliverableSpec) (c : Ctx) : Prop :=
  c.batch.index ≤ ds.length ∧
    (c.batch.status = BatchStatus.COMPLETE → c.batch.index = ds.length)

-- ===========================================================================
-- Module lifecycle controller and render loop (src/index.tsx), as a
-- labelled transition system
-- ===========================================================================

/-- A scene module as the lifecycle controller sees it: an identifier plus
whether its `update` / `dispose` lifecycle operations throw when invoked
(an arbitrary module satisfying the contract may do either). -/
structure ModuleSpec where
  mid : Nat
  updateFaults : Bool
  disposeFaults : Bool
deriving DecidableEq, Repr

/-- Observable actions of the lifecycle controller and render loop, in
program order.  Context instances are numbered by creation order. -/
inductive LAct
  | invalidate
  | disposeCall (cid : Nat)
  | disposeFault (cid : Nat)
  | sceneReset
  | initCall (cid : Nat)
  | publish (mid cid : Nat)
  | updateCall (cid : Nat)
  | updateFault (cid : Nat)
  | draw
deriving DecidableEq, Repr

/-- State of the `VirtualStudio` component in `src/index.tsx`:
`activeModule`/`moduleContext` are the React state pair, `contextRef` the
ref the render loop reads, `running` the loop's fail-stop flag,
`recPending`/`isRecording` the recording-completion machinery.  `disposed`
is the ghost list of context ids `dispose` has been invoked on (in order of
invocation), `trace` the ghost action log. -/
structure App where
  engineReady : Bool
  activeModule : Option ModuleSpec
  moduleContext : Option Nat
  contextRef : Option Nat
  nextCtxId : Nat
  running : Bool
  recPending : Bool
  isRecording : Bool
  disposed : List Nat
  trace : List LAct
deriving DecidableEq, Repr

/-- The dispose step of `loadModule` (step 2): invoked only when a module
and its context are both active; a throwing `dispose` is caught and only
logged. -/
def disposeActs (a : App) : List LAct :=
  match a.activeModule, a.moduleContext with
  | some am, some c =>
    [LAct.disposeCall c] ++ (if am.disposeFaults then [LAct.disposeFault c] else [])
  | _, _ => []

/-- Ghost record of `dispose` invocations performed by one `loadModule`. -/
def disposedAfter (a : App) : List Nat :=
  match a.activeModule, a.moduleContext with
  | some _, some c => a.disposed ++ [c]
  | _, _ => a.disposed

/-- `loadModule` in `src/index.tsx`: guard on engine refs; then
(1) synchronously null `contextRef` (invalidate), (2) dispose the previous
context with faults caught, (3) reset the scene, (4) `init` the new module
producing a fresh context, (5) publish the new (descriptor, context) pair;
the ref-sync effect re-points `contextRef` at the new context and the
render-loop effect (keyed on `activeModule`) restarts with a fresh
`running` flag.  The trace records the action order of the body. -/
def loadModule (m : ModuleSpec) (a : App) : App :=
  if a.engineReady = false then a
  else
    { a with
      contextRef := some a.nextCtxId,
      moduleContext := some a.nextCtxId,
      activeModule := some m,
      nextCtxId := a.nextCtxId + 1,
      running := true,
      disposed := disposedAfter a,
      trace := a.trace ++ [LAct.invalidate] ++ disposeActs a ++
        [LAct.sceneReset, LAct.initCall a.nextCtxId,
         LAct.publish m.mid a.nextCtxId] }

/-- One render-loop callback: when not fail-stopped, call `update` on the
current module and context if both exist — a throw is logged and clears
`running` (fail-stop) — then always draw. -/
def frame (a : App) : App :=
  if a.running = false then a
  else
    match a.activeModule, a.contextRef with
    | some m, some c =>
      if m.updateFaults then
        { a with
          running := false,
          trace := a.trace ++ [LAct.updateFault c, LAct.draw] }
      else
        { a with trace := a.trace ++ [LAct.updateCall c, LAct.draw] }
    | _, _ => { a with trace := a.trace ++ [LAct.draw] }

/-- Delivery of a pending `MediaRecorder.onstop` callback: touches only the
recording flags, never the module context or the loop. -/
def recStopComplete (a : App) : App :=
  if a.recPending then { a with recPending := false, isRecording := false }
  else a

/-- Interleavable events of the application timeline. -/
inductive Step
  | load (m : ModuleSpec)
  | frameTick
  | recComplete
deriving DecidableEq, Repr

def appStep : Step → App → App
  | .load m, a => loadModule m a
  | .frameTick, a => frame a
  | .recComplete, a => recStopComplete a

def runApp : List Step → App → App
  | [], a => a
  | s :: σ, a => runApp σ (appStep s a)

/-- The mounted application before any module is loaded. -/
def app0 : App :=
  { engineReady := true, activeModule := none, moduleContext := none,
    contextRef := none, nextCtxId := 0, running := true,
    recPending := false, isRecording := false, disposed := [], trace := [] }

/-- `x` is an update invocation on context `c`. -/
def updAct (c : Nat) (x : LAct) : Prop :=
  x = LAct.updateCall c ∨ x = LAct.updateFault c

/-- No action of `tr` is an update invocation on `c`. -/
def updFreeFor (c : Nat) (tr : List LAct) : Prop := ∀ x ∈ tr, ¬ updAct c x

/-- No update invocation on a context occurs after a dispose call on it. -/
def noUAD : List LAct → Prop
  | [] => True
  | LAct.disposeCall c :: tr => updFreeFor c tr ∧ noUAD tr
  | _ :: tr => noUAD tr

/-- The liveness/freshness invariant of the lifecycle controller. -/
structure AppInv (a : App) : Prop where
  refFresh : ∀ c, a.contextRef = some c → c < a.nextCtxId
  mctxFresh : ∀ c, a.moduleContext = some c → c < a.nextCtxId
  dispFresh : ∀ c, c ∈ a.disposed → c < a.nextCtxId
  refLive : ∀ c, a.contextRef = some c → c ∉ a.disposed
  mctxLive : ∀ c, a.moduleContext = some c → c ∉ a.disposed
  trDisp : ∀ c, LAct.disposeCall c ∈ a.trace ↔ c ∈ a.disposed
  trOK : noUAD a.trace

/-- Number of module-switch events in a step sequence. -/
def countLoads : List Step → Nat
  | [] => 0
  | Step.load _ :: σ => countLoads σ + 1
  | _ :: σ => countLoads σ

/-- Shape of the application state after `k` module switches: contexts
`0..k-1` created in order, every context but the last disposed (in creation
order), the last one active. -/
def GoodApp (a : App) (k : Nat) : Prop :=
  a.engineReady = true ∧ a.nextCtxId = k ∧ a.disposed = List.range (k - 1) ∧
    (k = 0 → a.moduleContext = none ∧ a.activeModule = none) ∧
    (0 < k → a.moduleContext = some (k - 1) ∧ a.contextRef = some (k - 1) ∧
      a.activeModule.isSome = true)

/-- How many loads one step contributes. -/
def loadInc : Step → Nat
  | Step.load _ => 1
  | _ => 0

-- ===========================================================================
-- Helper lemmas about one reconciliation step
-- ===========================================================================

theorem reconcile_index_mono (ds : List DeliverableSpec) (c : Ctx) (e : Engine)
    (n : ℚ) : c.batch.index ≤ (reconcile ds c e n).1.batch.index := by
  unfold reconcile
  repeat' split
  all_goals simp_all

theorem reconcile_index_le (ds : List DeliverableSpec) (c : Ctx) (e : Engine)
    (n : ℚ) (h : c.batch.index ≤ ds.length) :
    (reconcile ds c e n).1.batch.index ≤ ds.length := by
  unfold reconcile
  split
  · exact h
  split
  · exact h
  split
  · exact h
  case _ job heq =>
    have hlt : c.batch.index < ds.length := (List.getElem?_eq_some.mp heq).1
    repeat' split
    all_goals simp_all
    all_goals omega

theorem reconcile_complete_terminal (ds : List DeliverableSpec) (c : Ctx)
    (e : Engine) (n : ℚ) (h : c.batch.status = BatchStatus.COMPLETE) :
    reconcile ds c e n = (c, e) := by
  by_cases ha : c.batch.active = false
  · unfold reconcile
    rw [if_pos ha]
  · unfold reconcile
    rw [if_neg ha, if_pos h]

theorem reconcile_status_complete (ds : List DeliverableSpec) (c : Ctx)
    (e : Engine) (n : ℚ)
    (h : (reconcile ds c e n).1.batch.status = BatchStatus.COMPLETE) :
    c.batch.status = BatchStatus.COMPLETE ∨
      ((reconcile ds c e n).1.batch.index = c.batch.index ∧
        ds.length ≤ c.batch.index) := by
  revert h
  unfold reconcile
  split
  · exact fun h => Or.inl h
  split
  · exact fun h => Or.inl h
  split
  case _ heq =>
    intro _
    refine Or.inr ⟨by simp, ?_⟩
    simpa using List.getElem?_eq_none_iff.mp heq
  case _ job heq =>
    repeat' split
    all_goals intro h
    all_goals simp_all

theorem reconcile_BatchInv (ds : List DeliverableSpec) (c : Ctx) (e : Engine)
    (n : ℚ) (h : BatchInv ds c) : BatchInv ds (reconcile ds c e n).1 := by
  obtain ⟨hle, hcomp⟩ := h
  refine ⟨reconcile_index_le ds c e n hle, fun hc => ?_⟩
  rcases reconcile_status_complete ds c e n hc with h1 | h2
  · rw [reconcile_complete_terminal ds c e n h1]
    exact hcomp h1
  · obtain ⟨heq, hge⟩ := h2
    omega

theorem reconIter_index_mono (ds : List DeliverableSpec) (ns : List ℚ)
    (p : Ctx × Engine) : p.1.batch.index ≤ (reconIter ds ns p).1.batch.index := by
  induction ns generalizing p with
  | nil => exact le_refl _
  | cons n ns ih =>
    calc p.1.batch.index ≤ (reconcile ds p.1 p.2 n).1.batch.index :=
          reconcile_index_mono ds p.1 p.2 n
      _ ≤ (reconIter ds ns (reconcile ds p.1 p.2 n)).1.batch.index := ih _

theorem reconIter_BatchInv (ds : List DeliverableSpec) (ns : List ℚ)
    (p : Ctx × Engine) (h : BatchInv ds p.1) : BatchInv ds (reconIter ds ns p).1 := by
  induction ns generalizing p with
  | nil => exact h
  | cons n ns ih => exact ih _ (reconcile_BatchInv ds p.1 p.2 n h)

theorem reconIter_complete_terminal (ds : List DeliverableSpec) (ns : List ℚ)
    (p : Ctx × Engine) (h : p.1.batch.status = BatchStatus.COMPLETE) :
    reconIter ds ns p = p := by
  induction ns generalizing p with
  | nil => rfl
  | cons n ns ih =>
    show reconIter ds ns (reconcile ds p.1 p.2 n) = p
    rw [reconcile_complete_terminal ds p.1 p.2 n h]
    exact ih p h

-- ===========================================================================
-- Shot playback lemmas (AOBVoidModule.update)
-- ===========================================================================

theorem findShot_SH01 : findShot "SH01" = some shot01 := by
  with_unfolding_all rfl

/-- When a shot is playing, `update` is exactly the cosmetic prologue
followed by the playback body. -/
theorem update_playing (ctx : Ctx) (nowMs tm : ℚ) (sid : String)
    (h1 : ctx.isPlaying = true) (h2 : ctx.activeShotId = some sid) :
    update ctx nowMs tm = playback (viz ctx tm) sid nowMs := by
  simp only [update, viz]
  rw [h1, h2]

/-- When nothing is playing, `update` performs only the cosmetic prologue
and never fires the signal. -/
theorem update_not_playing (ctx : Ctx) (nowMs tm : ℚ)
    (h : ctx.isPlaying = false) : update ctx nowMs tm = ⟨viz ctx tm, false⟩ := by
  simp only [update, viz]
  rw [h]

/-- Once playback has stopped, any further run of frames never fires the
signal and playback stays stopped. -/
theorem updateSeq_stopped (frames : List (ℚ × ℚ)) (c : Ctx)
    (h : c.isPlaying = false) :
    (updateSeq frames c).2 = 0 ∧ (updateSeq frames c).1.isPlaying = false := by
  induction frames generalizing c with
  | nil => exact ⟨rfl, h⟩
  | cons f rest ih =>
    have hu := update_not_playing c f.1 f.2 h
    have hnext : (update c f.1 f.2).ctx.isPlaying = false := by rw [hu]; exact h
    have htail := ih (update c f.1 f.2).ctx hnext
    refine ⟨?_, htail.2⟩
    show (if (update c f.1 f.2).fired then 1 else 0) +
      (updateSeq rest (update c f.1 f.2).ctx).2 = 0
    rw [hu] at htail ⊢
    simpa using htail.1

/-- Sampling SH01 at 1500 ms after its start: camera at the midpoint
`[0,0,2.5]`, progress 50, still playing, signal not fired. -/
theorem playback_sh01_mid (c : Ctx) (hst : c.startTime = 0)
    (hb : c.batch.active = false) :
    playback c "SH01" 1500 =
      ⟨{ c with
         camera := { c.camera with pos := ⟨0, 0, 5/2⟩, look := ⟨0, 0, 0⟩ },
         progress := 50 }, false⟩ := by
  have hv : (("SH01" : String) = "VFX_PASS") = False := by decide
  have h2 : (("SH01" : String) = "SH02") = False := by decide
  have hmin : min (((1500:ℚ) - 0) / 1000 / 3) 1 = 1/2 := by
    rw [min_eq_left (by norm_num)]
    norm_num
  have hfl : jsRound (50 : ℚ) = 50 := by with_unfolding_all rfl
  simp only [playback, findShot_SH01, hst, hb, hv, h2, if_false, shot01,
    Option.map_some, Option.getD_some]
  norm_num [hmin, hfl, Vec3.lerp]

/-- Sampling SH01 at any wall clock at least 3000 ms after its start:
`t` clamps to 1, camera at the end position, progress 100, playback stops,
and the installed signal fires on this frame. -/
theorem playback_sh01_done (c : Ctx) (e : ℚ) (hst : c.startTime = 0)
    (hb : c.batch.active = false) (he : 3000 ≤ e) :
    playback c "SH01" e =
      ⟨{ c with
         camera := { c.camera with pos := ⟨0, 0, 0⟩, look := ⟨0, 0, 0⟩ },
         progress := 100, isPlaying := false }, c.onSignal⟩ := by
  have hv : (("SH01" : String) = "VFX_PASS") = False := by decide
  have h2 : (("SH01" : String) = "SH02") = False := by decide
  have hmin : min (e / 1000 / 3) 1 = 1 := by
    apply min_eq_right
    rw [div_div, le_div_iff₀ (by norm_num : (0:ℚ) < 1000 * 3)]
    linarith
  have hfl : jsRound (100 : ℚ) = 100 := by with_unfolding_all rfl
  simp only [playback, findShot_SH01, hst, hb, hv, h2, if_false, shot01,
    Option.map_some, Option.getD_some]
  norm_num [hmin, hfl, Vec3.lerp]

/-- The synthetic VFX_PASS identifier has no Shot Spec. -/
theorem findShot_VFX : findShot "VFX_PASS" = none := by
  with_unfolding_all rfl

/-- VFX_PASS playback at or past the fixed 12 s duration: progress 100,
playback stops, signal fires; no camera or tracking change. -/
theorem playback_vfx_done (c : Ctx) (e : ℚ)
    (hge : 12 ≤ (e - c.startTime) / 1000) :
    playback c "VFX_PASS" e =
      ⟨{ c with progress := 100, isPlaying := false }, c.onSignal⟩ := by
  have hv : (("VFX_PASS" : String) = "VFX_PASS") = True := by decide
  have hmin : min ((e - c.startTime) / 1000 / 12) 1 = 1 := by
    apply min_eq_right
    rw [le_div_iff₀ (by norm_num : (0:ℚ) < 12), one_mul]
    exact hge
  have hfl : jsRound (100 : ℚ) = 100 := by with_unfolding_all rfl
  simp only [playback, findShot_VFX, hv, if_true]
  rw [hmin]
  norm_num [hfl]

/-- VFX_PASS playback strictly before the 12 s mark: progress updates, the
shot keeps playing, no signal; no camera or tracking change. -/
theorem playback_vfx_run (c : Ctx) (e : ℚ)
    (hlt : (e - c.startTime) / 1000 < 12) :
    playback c "VFX_PASS" e =
      ⟨{ c with
         progress := jsRound (min ((e - c.startTime) / 1000 / 12) 1 * 100) },
        false⟩ := by
  have hv : (("VFX_PASS" : String) = "VFX_PASS") = True := by decide
  have hm : min ((e - c.startTime) / 1000 / 12) 1 = (e - c.startTime) / 1000 / 12 := by
    apply min_eq_left
    rw [div_le_iff₀ (by norm_num : (0:ℚ) < 12), one_mul]
    exact le_of_lt hlt
  have hnot : ¬ (1 ≤ min ((e - c.startTime) / 1000 / 12) 1) := by
    rw [hm, le_div_iff₀ (by norm_num : (0:ℚ) < 12), one_mul]
    exact not_le.mpr hlt
  simp only [playback, findShot_VFX, hv, if_true]
  rw [if_pos (by norm_num : (0:ℚ) < 12), if_neg hnot]

/-- Playback with an identifier that has no Shot Spec and is not VFX_PASS:
the zero-duration guard makes the whole body a no-op. -/
theorem playback_unknown (c : Ctx) (sid : String) (e : ℚ)
    (hfind : findShot sid = none) (hvfx : sid ≠ "VFX_PASS") :
    playback c sid e = ⟨c, false⟩ := by
  simp [playback, hfind, hvfx]

/-- An update with no active shot id performs only the cosmetic prologue. -/
theorem update_no_shot (ctx : Ctx) (nowMs tm : ℚ)
    (h : ctx.activeShotId = none) : update ctx nowMs tm = ⟨viz ctx tm, false⟩ := by
  simp only [update, viz]
  rw [h]
  split <;> simp_all

/-- A shot spec found by id in `SHOT_SPECS` carries one of the three
authored identifiers. -/
theorem findShot_mem_ids (sid : String) (s0 : ShotSpec)
    (h : findShot sid = some s0) : s0.id ∈ ["SH01", "SH02", "SH03"] := by
  have hm : s0 ∈ SHOT_SPECS := List.mem_of_find?_eq_some h
  simp only [SHOT_SPECS, List.mem_cons, List.not_mem_nil, or_false] at hm
  rcases hm with rfl | rfl | rfl <;> simp

/-- Every sample `update` appends to `trackingData` carries the id of a
shot spec found in `SHOT_SPECS`. -/
theorem update_tracking_mem (c : Ctx) (n t : ℚ) (s : TrackSample)
    (hs : s ∈ (update c n t).ctx.trackingData) :
    s ∈ c.trackingData ∨ s.shotId ∈ ["SH01", "SH02", "SH03"] := by
  revert hs
  simp only [update, viz]
  split
  case _ sid heqP heqA =>
    simp only [playback]
    repeat' split
    all_goals intro hs
    all_goals dsimp only at hs ⊢
    all_goals try simp only [List.mem_append, List.mem_singleton] at hs
    all_goals
      first
        | exact Or.inl hs
        | (rcases hs with hs | rfl
           · exact Or.inl hs
           · exact Or.inr (findShot_mem_ids sid _ (by assumption)))
  case _ =>
    exact fun hs => Or.inl hs

/-- The reconciliation effect never touches `trackingData`. -/
theorem reconcile_trackingData (ds : List DeliverableSpec) (c : Ctx)
    (e : Engine) (n : ℚ) : (reconcile ds c e n).1.trackingData = c.trackingData := by
  unfold reconcile
  repeat' split
  all_goals simp_all

-- ===========================================================================
-- Claim theorems
-- ===========================================================================

/-- C1: Full-batch scenario.  From a fresh AOB module context with the
6-entry deliverable list (3 VIDEO_PLATE, 1 VFX_ELEMENT, 2 METADATA),
`startBatch()` followed by per-frame reconciliation and shot playback under
advancing simulated time terminates with `batch.status = COMPLETE` and
`batch.index = 6`, having issued exactly 4 startRecording/stopRecording
pairs (one per VIDEO_PLATE and VFX_ELEMENT job) and exactly 2 saveJSON
writes, in the authored deliverable-list order. -/
theorem C1_full_batch_scenario :
    (runBatch 100 sys0).ctx.batch.status = BatchStatus.COMPLETE ∧
    (runBatch 100 sys0).ctx.batch.index = 6 ∧
    (runBatch 100 sys0).eng.events =
      [Event.startRec "AOB_SEQ01_S01_SH01_PLATE_v001.webm", Event.stopRec,
       Event.startRec "AOB_SEQ01_S01_SH02_PLATE_v001.webm", Event.stopRec,
       Event.startRec "AOB_SEQ01_S01_SH03_PLATE_v001.webm", Event.stopRec,
       Event.startRec "AOB_PTC_SHIMMER_01_v001.webm", Event.stopRec,
       Event.save "AOB_SEQ01_CAM_DATA.json" false,
       Event.save "AOB_SEQ01_PARTICLES.json" true] := by
  refine ⟨?_, ?_, ?_⟩
  · with_unfolding_all rfl
  · with_unfolding_all rfl
  · with_unfolding_all rfl

/-- C2: Batch cursor invariant.  Over any sequence of reconciliation steps,
`batch.index` is non-decreasing and stays within the deliverable-list
length; whenever the status is (or becomes) COMPLETE the cursor equals the
list length; a sequence starting at COMPLETE changes nothing (COMPLETE is
terminal for reconciliation); only a fresh `startBatch()` re-enters
PROCESSING and it resets the cursor to 0. -/
theorem C2_batch_cursor_invariant (ds : List DeliverableSpec) (ns : List ℚ)
    (ctx : Ctx) (eng : Engine)
    (hix : ctx.batch.index ≤ ds.length)
    (hcs : ctx.batch.status = BatchStatus.COMPLETE →
      ctx.batch.index = ds.length) :
    ctx.batch.index ≤ (reconIter ds ns (ctx, eng)).1.batch.index ∧
    (reconIter ds ns (ctx, eng)).1.batch.index ≤ ds.length ∧
    ((reconIter ds ns (ctx, eng)).1.batch.status = BatchStatus.COMPLETE →
      (reconIter ds ns (ctx, eng)).1.batch.index = ds.length) ∧
    (ctx.batch.status = BatchStatus.COMPLETE →
      reconIter ds ns (ctx, eng) = (ctx, eng)) ∧
    (startBatch ctx eng).1.batch.status = BatchStatus.PROCESSING ∧
    (startBatch ctx eng).1.batch.index = 0 := by
  have hinv := reconIter_BatchInv ds ns (ctx, eng) ⟨hix, hcs⟩
  exact ⟨reconIter_index_mono ds ns (ctx, eng), hinv.1, hinv.2,
    fun h => reconIter_complete_terminal ds ns (ctx, eng) h, rfl, rfl⟩

/-- C3: Shot interpolation boundary.  For the playing shot SH01
(`posStart=[0,0,5]`, `posEnd=[0,0,0]`, `duration=3.0`, start time 0), the
per-frame update at elapsed 1.5 s (wall clock 1500 ms) puts the camera at
`[0,0,2.5]` with progress 50; at every elapsed ≥ 3.0 s it clamps `t` to 1,
sets progress 100, camera at the end position, stops playback and fires the
installed signal on that frame; and on every subsequent frame (playback now
stopped) the signal never fires again — so it fires exactly once. -/
theorem C3_shot_interpolation_boundary (e tm : ℚ) (he : 3000 ≤ e) :
    (update sh01Ctx 1500 tm).ctx.camera.pos = ⟨0, 0, 5/2⟩ ∧
    (update sh01Ctx 1500 tm).ctx.progress = 50 ∧
    (update sh01Ctx 1500 tm).ctx.isPlaying = true ∧
    (update sh01Ctx 1500 tm).fired = false ∧
    (update sh01Ctx e tm).ctx.camera.pos = ⟨0, 0, 0⟩ ∧
    (update sh01Ctx e tm).ctx.progress = 100 ∧
    (update sh01Ctx e tm).ctx.isPlaying = false ∧
    (update sh01Ctx e tm).fired = true ∧
    (∀ frames : List (ℚ × ℚ),
      (updateSeq frames (update sh01Ctx e tm).ctx).2 = 0) := by
  have hmid := playback_sh01_mid (viz sh01Ctx tm) rfl rfl
  have hdone := playback_sh01_done (viz sh01Ctx tm) e rfl rfl he
  have h1 : update sh01Ctx 1500 tm = playback (viz sh01Ctx tm) "SH01" 1500 :=
    update_playing sh01Ctx 1500 tm "SH01" rfl rfl
  have h2 : update sh01Ctx e tm = playback (viz sh01Ctx tm) "SH01" e :=
    update_playing sh01Ctx e tm "SH01" rfl rfl
  rw [h1, hmid, h2, hdone]
  refine ⟨rfl, rfl, rfl, rfl, rfl, rfl, rfl, rfl, fun frames => ?_⟩
  exact (updateSeq_stopped frames _ rfl).1

/-- Witness for C3 at the concrete boundary input `e = 3000`, `tm = 0`,
discharging the hypothesis there. -/
theorem C3_shot_interpolation_boundary_witness :
    (update sh01Ctx 1500 0).ctx.camera.pos = ⟨0, 0, 5/2⟩ ∧
    (update sh01Ctx 1500 0).ctx.progress = 50 ∧
    (update sh01Ctx 1500 0).ctx.isPlaying = true ∧
    (update sh01Ctx 1500 0).fired = false ∧
    (update sh01Ctx 3000 0).ctx.camera.pos = ⟨0, 0, 0⟩ ∧
    (update sh01Ctx 3000 0).ctx.progress = 100 ∧
    (update sh01Ctx 3000 0).ctx.isPlaying = false ∧
    (update sh01Ctx 3000 0).fired = true ∧
    (∀ frames : List (ℚ × ℚ),
      (updateSeq frames (update sh01Ctx 3000 0).ctx).2 = 0) :=
  C3_shot_interpolation_boundary 3000 0 (by norm_num)

/-- C7: Batch job lookup miss.  When the reconciliation step dispatches a
VIDEO_PLATE job whose `shotId` matches no Shot Spec, the camera-setup step
(fov, position, look-at, and `activeShotId`) is bypassed, but a recording
still starts under the job's filename, `startTime` is stamped with the
current wall clock, and `isPlaying` is set to true. -/
theorem C7_video_plate_lookup_miss (job : DeliverableSpec) (ctx : Ctx)
    (eng : Engine) (now : ℚ)
    (hjob : job.type = DelType.VIDEO_PLATE)
    (hmiss : findShotFor job.shotId = none)
    (hplay : ctx.isPlaying = false) (hact : ctx.batch.active = true)
    (hstat : ctx.batch.status = BatchStatus.PROCESSING)
    (hidx : ctx.batch.index = 0)
    (hrec : eng.isRecording = false) (hrend : eng.hasRenderer = true) :
    (reconcile [job] ctx eng now).1.camera = ctx.camera ∧
    (reconcile [job] ctx eng now).1.activeShotId = ctx.activeShotId ∧
    (reconcile [job] ctx eng now).1.isPlaying = true ∧
    (reconcile [job] ctx eng now).1.startTime = now ∧
    (reconcile [job] ctx eng now).2.isRecording = true ∧
    (reconcile [job] ctx eng now).2.events =
      eng.events ++ [Event.startRec job.filename] := by
  simp [reconcile, startRecording, hjob, hmiss, hplay, hact, hstat, hidx,
    hrec, hrend]

/-- Witness for C7: a concrete VIDEO_PLATE job pointing at the unknown
shot id SH99, dispatched from a fresh processing batch state. -/
theorem C7_video_plate_lookup_miss_witness :
    (reconcile [⟨"bad", "BAD.webm", .VIDEO_PLATE, some "SH99", "missing shot"⟩]
        { uiCtx with batch := ⟨true, 0, .PROCESSING⟩ } eng0 2500).1.isPlaying = true ∧
    (reconcile [⟨"bad", "BAD.webm", .VIDEO_PLATE, some "SH99", "missing shot"⟩]
        { uiCtx with batch := ⟨true, 0, .PROCESSING⟩ } eng0 2500).1.startTime = 2500 ∧
    (reconcile [⟨"bad", "BAD.webm", .VIDEO_PLATE, some "SH99", "missing shot"⟩]
        { uiCtx with batch := ⟨true, 0, .PROCESSING⟩ } eng0 2500).1.camera =
      { uiCtx with batch := ⟨true, 0, .PROCESSING⟩ }.camera ∧
    (reconcile [⟨"bad", "BAD.webm", .VIDEO_PLATE, some "SH99", "missing shot"⟩]
        { uiCtx with batch := ⟨true, 0, .PROCESSING⟩ } eng0 2500).2.events =
      eng0.events ++ [Event.startRec "BAD.webm"] := by
  have h := C7_video_plate_lookup_miss
    ⟨"bad", "BAD.webm", .VIDEO_PLATE, some "SH99", "missing shot"⟩
    { uiCtx with batch := ⟨true, 0, .PROCESSING⟩ } eng0 2500
    rfl (by with_unfolding_all rfl) rfl rfl rfl rfl rfl rfl
  exact ⟨h.2.2.1, h.2.2.2.1, h.1, h.2.2.2.2.2⟩

/-- C8: `stopRecording` is a conditional finalizer.  With no recorder in
the `recording` state it is a no-op that changes no state; with one, it
finalizes the capture — leaving the asynchronous completion pending, with
the recording flag cleared only once that completion (which produces the
downloadable file) is delivered. -/
theorem C8_stop_recording_conditional (eng : Engine) :
    stopRecording { eng with recActive := false } = { eng with recActive := false } ∧
    (stopRecording { eng with recActive := true }).recActive = false ∧
    (stopRecording { eng with recActive := true }).pendingStop = true ∧
    (stopRecording { eng with recActive := true }).events =
      eng.events ++ [Event.stopRec] ∧
    (stopRecording { eng with recActive := true }).isRecording = eng.isRecording ∧
    (completeStop (stopRecording { eng with recActive := true })).isRecording = false ∧
    (completeStop (stopRecording { eng with recActive := true })).pendingStop = false := by
  simp [stopRecording, completeStop]

/-- Witness for C8 at the concrete idle engine state. -/
theorem C8_stop_recording_conditional_witness :
    stopRecording { eng0 with recActive := false } = { eng0 with recActive := false } ∧
    (completeStop (stopRecording { eng0 with recActive := true })).isRecording = false :=
  ⟨(C8_stop_recording_conditional eng0).1,
   (C8_stop_recording_conditional eng0).2.2.2.2.2.1⟩

/-- C9: The synthetic VFX_PASS shot runs for exactly 12.0 seconds (playback
stops on a frame iff at least 12 s have elapsed), and while it is the
active shot the per-frame update performs no camera interpolation and
appends no tracking samples; moreover every sample any update ever appends
to `trackingData` carries the id of a real Shot Spec (SH01, SH02 or SH03),
and the reconciliation effect never appends to `trackingData` at all. -/
theorem C9_vfx_pass_no_tracking (ctx : Ctx) (now tm : ℚ)
    (h1 : ctx.activeShotId = some "VFX_PASS") (h2 : ctx.isPlaying = true) :
    ((update ctx now tm).ctx.isPlaying = false ↔
      12 ≤ (now - ctx.startTime) / 1000) ∧
    (update ctx now tm).ctx.camera = ctx.camera ∧
    (update ctx now tm).ctx.trackingData = ctx.trackingData ∧
    (∀ (c : Ctx) (n t : ℚ) (s : TrackSample),
        s ∈ (update c n t).ctx.trackingData →
          s ∈ c.trackingData ∨ s.shotId ∈ ["SH01", "SH02", "SH03"]) ∧
    (∀ (ds : List DeliverableSpec) (c : Ctx) (e : Engine) (n : ℚ),
        (reconcile ds c e n).1.trackingData = c.trackingData) := by
  have hup : update ctx now tm = playback (viz ctx tm) "VFX_PASS" now :=
    update_playing ctx now tm "VFX_PASS" h2 h1
  by_cases hge : 12 ≤ (now - ctx.startTime) / 1000
  · rw [hup, playback_vfx_done (viz ctx tm) now hge]
    exact ⟨by simp [hge], rfl, rfl, update_tracking_mem, reconcile_trackingData⟩
  · rw [hup, playback_vfx_run (viz ctx tm) now (not_le.mp hge)]
    exact ⟨by simp [viz, h2, hge], rfl, rfl, update_tracking_mem,
      reconcile_trackingData⟩

/-- Witness for C9: a context playing VFX_PASS from wall-clock zero,
sampled at 12 s (the exact boundary). -/
theorem C9_vfx_pass_no_tracking_witness :
    ((update vfxCtx 12000 0).ctx.isPlaying = false ↔
      12 ≤ ((12000:ℚ) - vfxCtx.startTime) / 1000) ∧
    (update vfxCtx 12000 0).ctx.camera = vfxCtx.camera ∧
    (update vfxCtx 12000 0).ctx.trackingData = vfxCtx.trackingData :=
  have h := C9_vfx_pass_no_tracking vfxCtx 12000 0 rfl rfl
  ⟨h.1, h.2.1, h.2.2.1⟩

/-- C10: An update called with `isPlaying = true` but no active shot id, or
an active id that names neither a registered Shot Spec nor VFX_PASS, leaves
`isPlaying`, `progress`, `startTime` and the camera unchanged and never
invokes the installed signal. -/
theorem C10_playback_unknown_shot_noop (ctx : Ctx) (now tm : ℚ)
    (hplay : ctx.isPlaying = true)
    (hbad : ctx.activeShotId = none ∨
      ∃ s, ctx.activeShotId = some s ∧ findShot s = none ∧ s ≠ "VFX_PASS") :
    (update ctx now tm).ctx.isPlaying = ctx.isPlaying ∧
    (update ctx now tm).ctx.progress = ctx.progress ∧
    (update ctx now tm).ctx.startTime = ctx.startTime ∧
    (update ctx now tm).ctx.camera = ctx.camera ∧
    (update ctx now tm).fired = false := by
  rcases hbad with hnone | ⟨s, hsome, hfind, hvfx⟩
  · rw [update_no_shot ctx now tm hnone]
    exact ⟨rfl, rfl, rfl, rfl, rfl⟩
  · rw [update_playing ctx now tm s hplay hsome,
      playback_unknown (viz ctx tm) s now hfind hvfx]
    exact ⟨rfl, rfl, rfl, rfl, rfl⟩

theorem noUAD_of_no_upd (u : List LAct)
    (h : ∀ x ∈ u, ∀ c, ¬ updAct c x) : noUAD u := by
  induction u with
  | nil => trivial
  | cons a u ih =>
    have hu : noUAD u := ih (fun x hx => h x (List.mem_cons_of_mem a hx))
    cases a with
    | disposeCall c =>
      exact ⟨fun x hx => h x (List.mem_cons_of_mem _ hx) c, hu⟩
    | invalidate => exact hu
    | disposeFault c => exact hu
    | sceneReset => exact hu
    | initCall c => exact hu
    | publish m c => exact hu
    | updateCall c => exact hu
    | updateFault c => exact hu
    | draw => exact hu

theorem noUAD_append (tr u : List LAct) (h1 : noUAD tr)
    (h2 : ∀ c, LAct.disposeCall c ∈ tr → updFreeFor c u) (h3 : noUAD u) :
    noUAD (tr ++ u) := by
  induction tr with
  | nil => simpa using h3
  | cons a tr ih =>
    have hrec : noUAD (tr ++ u) → noUAD (a :: (tr ++ u)) → noUAD (a :: tr ++ u) := by
      intro _ hh
      simpa using hh
    cases a with
    | disposeCall c =>
      have htl : noUAD (tr ++ u) :=
        ih h1.2 (fun c' hc' => h2 c' (List.mem_cons_of_mem _ hc'))
      refine ⟨?_, htl⟩
      intro x hx
      rcases List.mem_append.mp hx with hx | hx
      · exact h1.1 x hx
      · exact h2 c (List.mem_cons_self _ _) x hx
    | invalidate =>
      exact ih h1 (fun c' hc' => h2 c' (List.mem_cons_of_mem _ hc'))
    | disposeFault c =>
      exact ih h1 (fun c' hc' => h2 c' (List.mem_cons_of_mem _ hc'))
    | sceneReset =>
      exact ih h1 (fun c' hc' => h2 c' (List.mem_cons_of_mem _ hc'))
    | initCall c =>
      exact ih h1 (fun c' hc' => h2 c' (List.mem_cons_of_mem _ hc'))
    | publish m c =>
      exact ih h1 (fun c' hc' => h2 c' (List.mem_cons_of_mem _ hc'))
    | updateCall c =>
      exact ih h1 (fun c' hc' => h2 c' (List.mem_cons_of_mem _ hc'))
    | updateFault c =>
      exact ih h1 (fun c' hc' => h2 c' (List.mem_cons_of_mem _ hc'))
    | draw =>
      exact ih h1 (fun c' hc' => h2 c' (List.mem_cons_of_mem _ hc'))

theorem AppInv_app0 : AppInv app0 := by
  constructor <;> simp [app0, noUAD]

theorem trDisp_append (a : App) (u : List LAct)
    (h : ∀ c, LAct.disposeCall c ∈ a.trace ↔ c ∈ a.disposed)
    (hu : ∀ c, LAct.disposeCall c ∉ u) (c : Nat) :
    LAct.disposeCall c ∈ a.trace ++ u ↔ c ∈ a.disposed := by
  rw [List.mem_append]
  constructor
  · rintro (hh | hh)
    · exact (h c).mp hh
    · exact absurd hh (hu c)
  · exact fun hh => Or.inl ((h c).mpr hh)

theorem AppInv_recStop (a : App) (h : AppInv a) : AppInv (recStopComplete a) := by
  unfold recStopComplete
  split
  · exact ⟨h.refFresh, h.mctxFresh, h.dispFresh, h.refLive, h.mctxLive,
      h.trDisp, h.trOK⟩
  · exact h

theorem AppInv_frame (a : App) (h : AppInv a) : AppInv (frame a) := by
  unfold frame
  split
  · exact h
  split
  case _ m c hm hc =>
    have hlive : c ∉ a.disposed := h.refLive c hc
    have hfree : ∀ u, (∀ x ∈ u, ∀ c2, ¬ updAct c2 x ∨ c2 = c) →
        ∀ c', LAct.disposeCall c' ∈ a.trace → updFreeFor c' u := by
      intro u hu c' htr x hx hupd
      rcases hu x hx c' with hno | rfl
      · exact hno hupd
      · exact hlive ((h.trDisp c').mp htr)
    split
    all_goals
      refine ⟨h.refFresh, h.mctxFresh, h.dispFresh, h.refLive, h.mctxLive,
        fun c' => trDisp_append a _ h.trDisp (by intro c2; simp) c', ?_⟩
    all_goals
      refine noUAD_append _ _ h.trOK (hfree _ ?_)
        (by simp [noUAD, updFreeFor, updAct])
    all_goals intro x hx c2
    all_goals
      rcases List.mem_cons.mp hx with rfl | hx
      · by_cases hc2 : c = c2
        · exact Or.inr hc2.symm
        · exact Or.inl (by simp [updAct, hc2])
      · simp only [List.mem_singleton] at hx
        subst hx
        exact Or.inl (by simp [updAct])
  case _ hm =>
    refine ⟨h.refFresh, h.mctxFresh, h.dispFresh, h.refLive, h.mctxLive,
      fun c' => trDisp_append a _ h.trDisp (by intro c2; simp) c', ?_⟩
    refine noUAD_append _ _ h.trOK ?_ (by simp [noUAD])
    intro c' _ x hx
    simp only [List.mem_singleton] at hx
    subst hx
    simp [updAct]

theorem disposeActs_no_upd (a : App) :
    ∀ x ∈ disposeActs a, ∀ c, ¬ updAct c x := by
  unfold disposeActs
  split
  case _ am cid hm hc =>
    intro x hx c
    rcases List.mem_append.mp hx with hx | hx
    · simp only [List.mem_singleton] at hx
      subst hx
      simp [updAct]
    · split at hx
      · simp only [List.mem_singleton] at hx
        subst hx
        simp [updAct]
      · simp at hx
  case _ => simp

theorem AppInv_load (m : ModuleSpec) (a : App) (h : AppInv a) :
    AppInv (loadModule m a) := by
  unfold loadModule
  split
  · exact h
  have hdispLt : ∀ c, c ∈ disposedAfter a → c < a.nextCtxId := by
    intro c hc
    unfold disposedAfter at hc
    split at hc
    case _ am cid hm hmc =>
      rcases List.mem_append.mp hc with hc | hc
      · exact h.dispFresh c hc
      · simp only [List.mem_singleton] at hc
        subst hc
        exact h.mctxFresh c hmc
    case _ => exact h.dispFresh c hc
  have hno : ∀ x, (x ∈ [LAct.invalidate] ∨ x ∈ disposeActs a ∨
      x ∈ [LAct.sceneReset, LAct.initCall a.nextCtxId,
        LAct.publish m.mid a.nextCtxId]) → ∀ c, ¬ updAct c x := by
    rintro x (hx | hx | hx) c
    · simp only [List.mem_singleton] at hx
      subst hx
      simp [updAct]
    · exact disposeActs_no_upd a x hx c
    · fin_cases hx <;> simp [updAct]
  have htr : ∀ c, LAct.disposeCall c ∈
      a.trace ++ [LAct.invalidate] ++ disposeActs a ++
        [LAct.sceneReset, LAct.initCall a.nextCtxId,
         LAct.publish m.mid a.nextCtxId] ↔ c ∈ disposedAfter a := by
    intro c
    unfold disposedAfter disposeActs
    cases hA : a.activeModule with
    | none =>
      simp [List.mem_append, h.trDisp c]
    | some am =>
      cases hM : a.moduleContext with
      | none =>
        simp [List.mem_append, h.trDisp c]
      | some cid =>
        by_cases hdf : am.disposeFaults = true <;>
          simp [hdf, List.mem_append, h.trDisp c]
  refine ⟨?_, ?_, ?_, ?_, ?_, htr, ?_⟩
  · intro c hc
    cases hc
    exact Nat.lt_succ_self _
  · intro c hc
    cases hc
    exact Nat.lt_succ_self _
  · intro c hc
    exact Nat.lt_succ_of_lt (hdispLt c hc)
  · intro c hc
    cases hc
    intro hmem
    exact absurd (hdispLt _ hmem) (lt_irrefl _)
  · intro c hc
    cases hc
    intro hmem
    exact absurd (hdispLt _ hmem) (lt_irrefl _)
  · have step1 : noUAD (a.trace ++ ([LAct.invalidate] ++ (disposeActs a ++
        [LAct.sceneReset, LAct.initCall a.nextCtxId,
         LAct.publish m.mid a.nextCtxId]))) := by
      refine noUAD_append _ _ h.trOK ?_ ?_
      · intro c' _ x hx
        refine hno x ?_ c'
        rcases List.mem_append.mp hx with hx | hx
        · exact Or.inl hx
        rcases List.mem_append.mp hx with hx | hx
        · exact Or.inr (Or.inl hx)
        · exact Or.inr (Or.inr hx)
      · refine noUAD_of_no_upd _ ?_
        intro x hx c'
        refine hno x ?_ c'
        rcases List.mem_append.mp hx with hx | hx
        · exact Or.inl hx
        rcases List.mem_append.mp hx with hx | hx
        · exact Or.inr (Or.inl hx)
        · exact Or.inr (Or.inr hx)
    simpa [List.append_assoc] using step1

theorem AppInv_step (s : Step) (a : App) (h : AppInv a) : AppInv (appStep s a) := by
  cases s with
  | load m => exact AppInv_load m a h
  | frameTick => exact AppInv_frame a h
  | recComplete => exact AppInv_recStop a h

theorem AppInv_runApp (σ : List Step) (a : App) (h : AppInv a) :
    AppInv (runApp σ a) := by
  induction σ generalizing a with
  | nil => exact h
  | cons s σ ih => exact ih (appStep s a) (AppInv_step s a h)

theorem GoodApp_load (m : ModuleSpec) (a : App) (k : Nat) (h : GoodApp a k) :
    GoodApp (loadModule m a) (k + 1) := by
  obtain ⟨her, hnext, hdisp, hz, hp⟩ := h
  unfold loadModule
  rw [if_neg (by simp [her])]
  rcases Nat.eq_zero_or_pos k with rfl | hk
  · obtain ⟨hmc, hact⟩ := hz rfl
    have hred : disposedAfter a = a.disposed := by
      unfold disposedAfter
      rw [hact]
    refine ⟨her, by simp [hnext], ?_, by omega,
      fun _ => ⟨by simp [hnext], by simp [hnext], by simp⟩⟩
    show disposedAfter a = _
    rw [hred, hdisp]
  · obtain ⟨hmc, _, hact⟩ := hp hk
    obtain ⟨am, ham⟩ := Option.isSome_iff_exists.mp hact
    have hred : disposedAfter a = a.disposed ++ [k - 1] := by
      unfold disposedAfter
      rw [ham, hmc]
    refine ⟨her, by simp [hnext], ?_, by omega,
      fun _ => ⟨by simp [hnext], by simp [hnext], by simp⟩⟩
    show disposedAfter a = _
    rw [hred, hdisp, ← List.range_succ]
    congr 1
    omega

theorem GoodApp_frame (a : App) (k : Nat) (h : GoodApp a k) :
    GoodApp (frame a) k := by
  obtain ⟨her, hnext, hdisp, hz, hp⟩ := h
  unfold frame
  split
  · exact ⟨her, hnext, hdisp, hz, hp⟩
  split
  · split
    · exact ⟨her, hnext, hdisp, hz, hp⟩
    · exact ⟨her, hnext, hdisp, hz, hp⟩
  · exact ⟨her, hnext, hdisp, hz, hp⟩

theorem GoodApp_recStop (a : App) (k : Nat) (h : GoodApp a k) :
    GoodApp (recStopComplete a) k := by
  obtain ⟨her, hnext, hdisp, hz, hp⟩ := h
  unfold recStopComplete
  split
  · exact ⟨her, hnext, hdisp, hz, hp⟩
  · exact ⟨her, hnext, hdisp, hz, hp⟩

theorem GoodApp_step (s : Step) (a : App) (k : Nat) (h : GoodApp a k) :
    GoodApp (appStep s a) (k + loadInc s) := by
  cases s with
  | load m => exact GoodApp_load m a k h
  | frameTick => exact GoodApp_frame a k h
  | recComplete => exact GoodApp_recStop a k h

theorem countLoads_cons (s : Step) (σ : List Step) :
    countLoads (s :: σ) = loadInc s + countLoads σ := by
  cases s <;> simp [countLoads, loadInc, Nat.add_comm]

theorem GoodApp_runApp (σ : List Step) (a : App) (k : Nat) (h : GoodApp a k) :
    GoodApp (runApp σ a) (k + countLoads σ) := by
  induction σ generalizing a k with
  | nil => simpa [countLoads] using h
  | cons s σ ih =>
    have h1 := ih (appStep s a) (k + loadInc s) (GoodApp_step s a k h)
    rw [countLoads_cons]
    have : k + loadInc s + countLoads σ = k + (loadInc s + countLoads σ) := by omega
    rw [← this]
    exact h1

theorem GoodApp_app0 : GoodApp app0 0 := by
  refine ⟨rfl, rfl, by simp [app0], fun _ => ⟨rfl, rfl⟩, fun hk => absurd hk (by omega)⟩

/-- With the render loop fail-stopped and no module switch occurring, no
step of the timeline touches the trace or restarts the loop. -/
theorem runApp_stopped (σ : List Step) (a : App) (hrun : a.running = false)
    (hnl : ∀ s ∈ σ, ∀ m3, s ≠ Step.load m3) :
    (runApp σ a).trace = a.trace ∧ (runApp σ a).running = false := by
  induction σ generalizing a with
  | nil => exact ⟨rfl, hrun⟩
  | cons s σ ih =>
    cases s with
    | load m3 => exact absurd rfl (hnl _ (List.mem_cons_self _ _) m3)
    | frameTick =>
      have hfr : frame a = a := by
        unfold frame
        rw [if_pos hrun]
      show (runApp σ (frame a)).trace = a.trace ∧ (runApp σ (frame a)).running = false
      rw [hfr]
      exact ih a hrun (fun s hs => hnl s (List.mem_cons_of_mem _ hs))
    | recComplete =>
      have h1 : (recStopComplete a).trace = a.trace := by
        unfold recStopComplete
        split <;> rfl
      have h2 : (recStopComplete a).running = false := by
        unfold recStopComplete
        split
        · exact hrun
        · exact hrun
      have := ih (recStopComplete a) h2 (fun s hs => hnl s (List.mem_cons_of_mem _ hs))
      exact ⟨this.1.trans h1, this.2⟩

/-- C4: Invalidate-then-dispose ordering.  Every execution of the module
switch emits the invalidation of the render loop's context reference
strictly before everything else it does — in particular before the
outgoing context's dispose call, which lies inside the remainder of the
segment; and over every interleaving of switches, frames and
recording-stop completions from startup, the render loop never invokes
`update` (successfully or faultily) on a context at any point after a
dispose call on that context. -/
theorem C4_invalidate_then_dispose (m : ModuleSpec) (a : App) (σ : List Step)
    (h : a.engineReady = true) :
    (∃ rest, (loadModule m a).trace = a.trace ++ (LAct.invalidate :: rest) ∧
      rest = disposeActs a ++ [LAct.sceneReset, LAct.initCall a.nextCtxId,
        LAct.publish m.mid a.nextCtxId]) ∧
    noUAD (runApp σ app0).trace := by
  constructor
  · refine ⟨disposeActs a ++ [LAct.sceneReset, LAct.initCall a.nextCtxId,
      LAct.publish m.mid a.nextCtxId], ?_, rfl⟩
    unfold loadModule
    rw [if_neg (by simp [h])]
    simp [List.append_assoc]
  · exact (AppInv_runApp σ app0 AppInv_app0).trOK

/-- Witness for C4: a switch from the freshly mounted application, and the
trace of a load-frame-switch-callback-frame interleaving. -/
theorem C4_invalidate_then_dispose_witness :
    (∃ rest, (loadModule ⟨1, false, false⟩ app0).trace =
        app0.trace ++ (LAct.invalidate :: rest) ∧
      rest = disposeActs app0 ++ [LAct.sceneReset, LAct.initCall app0.nextCtxId,
        LAct.publish 1 app0.nextCtxId]) ∧
    noUAD (runApp [Step.load ⟨1, false, false⟩, Step.frameTick,
      Step.load ⟨2, false, false⟩, Step.recComplete, Step.frameTick] app0).trace :=
  C4_invalidate_then_dispose ⟨1, false, false⟩ app0
    [Step.load ⟨1, false, false⟩, Step.frameTick, Step.load ⟨2, false, false⟩,
     Step.recComplete, Step.frameTick] rfl

/-- C5: Dispose-once.  For any interleaving of steps containing N module
switches from startup, `dispose` has been invoked exactly on contexts
`0 .. N-2`, in creation order — i.e. exactly N−1 invocations, once per
context except the final active one, never twice on the same context
(`Nodup`); exactly N contexts were ever created (one per `init`), and the
final active context is not disposed. -/
theorem C5_dispose_once (σ : List Step) :
    (runApp σ app0).disposed = List.range (countLoads σ - 1) ∧
    (runApp σ app0).disposed.Nodup ∧
    (runApp σ app0).nextCtxId = countLoads σ ∧
    (0 < countLoads σ →
      (runApp σ app0).moduleContext = some (countLoads σ - 1) ∧
      (countLoads σ - 1) ∉ (runApp σ app0).disposed) := by
  have hg := GoodApp_runApp σ app0 0 GoodApp_app0
  rw [Nat.zero_add] at hg
  obtain ⟨_, hnext, hdisp, _, hp⟩ := hg
  refine ⟨hdisp, by rw [hdisp]; exact List.nodup_range _, hnext, fun hk => ?_⟩
  obtain ⟨hmc, _, _⟩ := hp hk
  refine ⟨hmc, ?_⟩
  rw [hdisp]
  simp [List.mem_range]

/-- Witness for C5: three switches interleaved with frames and a
recording completion; dispose ran exactly on contexts 0 and 1. -/
theorem C5_dispose_once_witness :
    (runApp [Step.load ⟨1, false, false⟩, Step.frameTick,
        Step.load ⟨2, false, false⟩, Step.recComplete,
        Step.load ⟨3, false, false⟩] app0).disposed = List.range 2 ∧
    (runApp [Step.load ⟨1, false, false⟩, Step.frameTick,
        Step.load ⟨2, false, false⟩, Step.recComplete,
        Step.load ⟨3, false, false⟩] app0).moduleContext = some 2 :=
  have h := C5_dispose_once [Step.load ⟨1, false, false⟩, Step.frameTick,
    Step.load ⟨2, false, false⟩, Step.recComplete, Step.load ⟨3, false, false⟩]
  ⟨h.1, (h.2.2.2 (by decide)).1⟩

/-- C6: Render-loop fail-stop, dispose-fault tolerance.  If the active
module's `update` throws during a frame, the loop logs the fault, still
draws, and clears its `running` flag; on every subsequent step that does
not recreate the loop (no module switch), the trace never grows — update
is never called again.  Conversely a `dispose` fault during a switch is
caught: for every state with the engine ready — including one whose active
module's dispose throws — the switch completes, publishing the new module
and a fresh context. -/
theorem C6_failstop_and_dispose_fault (a : App) (m : ModuleSpec) (c : Nat)
    (σ : List Step) (m2 : ModuleSpec) (a2 : App)
    (hrun : a.running = true) (hmod : a.activeModule = some m)
    (hflt : m.updateFaults = true) (href : a.contextRef = some c)
    (hnl : ∀ s ∈ σ, ∀ m3, s ≠ Step.load m3) (h2 : a2.engineReady = true) :
    (frame a).running = false ∧
    (frame a).trace = a.trace ++ [LAct.updateFault c, LAct.draw] ∧
    (runApp σ (frame a)).trace = (frame a).trace ∧
    (loadModule m2 a2).activeModule = some m2 ∧
    (loadModule m2 a2).moduleContext = some a2.nextCtxId ∧
    (loadModule m2 a2).contextRef = some a2.nextCtxId := by
  have hfr : frame a =
      { a with
        running := false,
        trace := a.trace ++ [LAct.updateFault c, LAct.draw] } := by
    unfold frame
    rw [if_neg (by simp [hrun]), hmod, href]
    simp [hflt]
  have hstop := runApp_stopped σ (frame a) (by rw [hfr]) hnl
  refine ⟨by rw [hfr], by rw [hfr], hstop.1, ?_, ?_, ?_⟩
  all_goals
    unfold loadModule
    rw [if_neg (by simp [h2])]

/-- Witness for C6: a module whose update throws, loaded and run one frame,
then a frame and a completion callback; plus a switch away from it to a
module whose dispose throws. -/
theorem C6_failstop_and_dispose_fault_witness :
    (frame (loadModule ⟨7, true, true⟩ app0)).running = false ∧
    (runApp [Step.frameTick, Step.recComplete]
        (frame (loadModule ⟨7, true, true⟩ app0))).trace =
      (frame (loadModule ⟨7, true, true⟩ app0)).trace ∧
    (loadModule ⟨8, false, false⟩
        (frame (loadModule ⟨7, true, true⟩ app0))).activeModule =
      some ⟨8, false, false⟩ :=
  have h := C6_failstop_and_dispose_fault (loadModule ⟨7, true, true⟩ app0)
    ⟨7, true, true⟩ 0 [Step.frameTick, Step.recComplete] ⟨8, false, false⟩
    (frame (loadModule ⟨7, true, true⟩ app0))
    (by with_unfolding_all rfl) (by with_unfolding_all rfl) rfl
    (by with_unfolding_all rfl)
    (by intro s hs m3; fin_cases hs <;> simp)
    (by with_unfolding_all rfl)
  ⟨h.1, h.2.2.1, h.2.2.2.1⟩

/-- Witness for C10 at two concrete inputs: no active shot, and the
unregistered identifier SHXX. -/
theorem C10_playback_unknown_shot_noop_witness :
    (update { uiCtx with isPlaying := true } 500 0).ctx.progress =
      { uiCtx with isPlaying := true }.progress ∧
    (update { uiCtx with isPlaying := true } 500 0).fired = false ∧
    (update { uiCtx with isPlaying := true, activeShotId := some "SHXX" } 500 0).ctx.camera =
      { uiCtx with isPlaying := true, activeShotId := some "SHXX" }.camera ∧
    (update { uiCtx with isPlaying := true, activeShotId := some "SHXX" } 500 0).fired =
      false := by
  have ha := C10_playback_unknown_shot_noop { uiCtx with isPlaying := true }
    500 0 rfl (Or.inl rfl)
  have hb := C10_playback_unknown_shot_noop
    { uiCtx with isPlaying := true, activeShotId := some "SHXX" } 500 0 rfl
    (Or.inr ⟨"SHXX", rfl, by with_unfolding_all rfl, by decide⟩)
  exact ⟨ha.2.1, ha.2.2.2.2, hb.2.2.2.1, hb.2.2.2.2⟩

/-- Witness for C2 at the concrete AOB deliverable list: a fresh context
with the batch just started, reconciled at three wall-clock instants, and a
COMPLETE context, discharging every hypothesis at concrete inputs. -/
theorem C2_batch_cursor_invariant_witness :
    ((startBatch uiCtx eng0).1.batch.index ≤
      (reconIter DELIVERABLES [0, 1000, 2000]
        ((startBatch uiCtx eng0).1, (startBatch uiCtx eng0).2)).1.batch.index) ∧
    ({ uiCtx with batch := ⟨false, 6, .COMPLETE⟩ }.batch.status =
        BatchStatus.COMPLETE →
      reconIter DELIVERABLES [0] ({ uiCtx with batch := ⟨false, 6, .COMPLETE⟩ }, eng0) =
        ({ uiCtx with batch := ⟨false, 6, .COMPLETE⟩ }, eng0)) := by
  constructor
  · exact (C2_batch_cursor_invariant DELIVERABLES [0, 1000, 2000]
      (startBatch uiCtx eng0).1 (startBatch uiCtx eng0).2
      (by with_unfolding_all decide) (by with_unfolding_all decide)).1
  · exact (C2_batch_cursor_invariant DELIVERABLES [0]
      { uiCtx with batch := ⟨false, 6, .COMPLETE⟩ } eng0
      (by with_unfolding_all decide) (by with_unfolding_all decide)).2.2.2.1

end VS
